import Mathlib

/-!
Verification of the private intent lifecycle engine of this repository.

The on-chain part is embedded from
`move/intent_registry/sources/intent_registry.move`: statuses and trigger
kinds are the module's `u8` constants, abort codes are the module's error
constants, and every public function of the module becomes a Lean function
returning `Except MoveAbort _` (a Move `assert!` failure aborts the whole
transaction, so a failing call yields `.error` and produces no new state).
Move `u64` arithmetic aborts on overflow and underflow; `addU64`/`subU64`
model that.

The off-chain part is embedded from `src/lib/seal.ts` (mock Seal
encryption: XOR cipher, envelope framing, JSON payload) and from the
limit-order trigger evaluation in the trade page (`shouldTrigger`).
-/

namespace IntentRegistry

/-! ### Constants from `intent_registry.move` -/

def STATUS_ACTIVE : Nat := 0
def STATUS_EXECUTING : Nat := 1
def STATUS_EXECUTED : Nat := 2
def STATUS_CANCELLED : Nat := 3
def STATUS_EXPIRED : Nat := 4
def STATUS_FAILED : Nat := 5

def TRIGGER_PRICE_BELOW : Nat := 0
def TRIGGER_PRICE_ABOVE : Nat := 1

/-- Abort reasons.  The first six are the module's error constants
`ENotOwner .. EInvalidTriggerType`; `EArith` models the Move VM's abort on
`u64` overflow/underflow; `ENoObject` models a call made with a
nonexistent shared object id (impossible to even construct on-chain). -/
inductive MoveAbort where
  | ENotOwner
  | EInvalidStatus
  | EIntentExpired
  | EAlreadyExecuting
  | EInvalidSignature
  | EInvalidTriggerType
  | EArith
  | ENoObject
deriving DecidableEq, Repr

/-- Move `assert!(cond, err)`. -/
def massert (p : Prop) [Decidable p] (e : MoveAbort) : Except MoveAbort Unit :=
  if p then .ok () else .error e

/-- `u64` addition with the Move VM's overflow abort. -/
def addU64 (a b : Nat) : Except MoveAbort Nat :=
  if a + b < 2 ^ 64 then .ok (a + b) else .error .EArith

/-- `u64` subtraction with the Move VM's underflow abort. -/
def subU64 (a b : Nat) : Except MoveAbort Nat :=
  if b ≤ a then .ok (a - b) else .error .EArith

/-! ### Data model from `intent_registry.move` -/

/-- The `Intent` shared object.  The `UID` field is left out: object
identity is handled by position in the global state's intent list.
Addresses are modelled as naturals, byte vectors as `List Nat`. -/
structure Intent where
  owner : Nat
  encrypted_data : List Nat
  created_at : Nat
  expires_at : Nat
  status : Nat
  trigger_type : Nat
  trigger_value : Nat
  pair_hash : List Nat
  executed_at : Option Nat
  executed_price : Option Nat
  tx_digest : Option (List Nat)
deriving DecidableEq, Repr

/-- The shared `IntentRegistry` stats object. -/
structure Registry where
  total_intents : Nat
  active_intents : Nat
  executed_intents : Nat
deriving DecidableEq, Repr

/-- The `EnclaveCap` capability object (created by `create_enclave_cap`,
consumed by no function of the module). -/
structure EnclaveCap where
  enclave_pk : List Nat
deriving DecidableEq, Repr

/-- `create_enclave_cap` from the source (admin function, "for future
use"). -/
def create_enclave_cap (enclave_pk : List Nat) : EnclaveCap :=
  ⟨enclave_pk⟩

/-! ### Entry and public functions from `intent_registry.move` -/

/-- `create_intent`.  `now` is `clock.timestamp_ms()`, `sender` is
`ctx.sender()`.  Returns the updated registry and the newly shared
intent. -/
def create_intent (registry : Registry) (encrypted_data : List Nat)
    (trigger_type trigger_value : Nat) (pair_hash : List Nat)
    (expires_at : Nat) (now sender : Nat) :
    Except MoveAbort (Registry × Intent) := do
  massert (expires_at > now) .EIntentExpired
  massert (trigger_type ≤ TRIGGER_PRICE_ABOVE) .EInvalidTriggerType
  let intent : Intent :=
    { owner := sender
      encrypted_data := encrypted_data
      created_at := now
      expires_at := expires_at
      status := STATUS_ACTIVE
      trigger_type := trigger_type
      trigger_value := trigger_value
      pair_hash := pair_hash
      executed_at := none
      executed_price := none
      tx_digest := none }
  let total ← addU64 registry.total_intents 1
  let active ← addU64 registry.active_intents 1
  pure ({ registry with total_intents := total, active_intents := active },
    intent)

/-- `cancel_intent` (only the owner may cancel an Active intent). -/
def cancel_intent (registry : Registry) (intent : Intent)
    (sender : Nat) : Except MoveAbort (Registry × Intent) := do
  massert (sender = intent.owner) .ENotOwner
  massert (intent.status = STATUS_ACTIVE) .EInvalidStatus
  let active ← subU64 registry.active_intents 1
  pure ({ registry with active_intents := active },
    { intent with status := STATUS_CANCELLED })

/-- `is_expired` view function. -/
def is_expired (intent : Intent) (now : Nat) : Bool :=
  intent.expires_at ≤ now

/-- `mark_executing` — the claim-for-execution transition.  Note the
source function takes only the intent and the clock: it consults no
capability, signature or sender. -/
def mark_executing (intent : Intent) (now : Nat) :
    Except MoveAbort Intent := do
  massert (intent.status = STATUS_ACTIVE) .EAlreadyExecuting
  massert (intent.expires_at > now) .EIntentExpired
  pure { intent with status := STATUS_EXECUTING }

/-- `mark_executed` — the finalize-success transition.  Again no
capability, signature or sender parameter exists in the source. -/
def mark_executed (registry : Registry) (intent : Intent)
    (executed_price : Nat) (tx_digest : List Nat) (now : Nat) :
    Except MoveAbort (Registry × Intent) := do
  massert (intent.status = STATUS_EXECUTING) .EInvalidStatus
  let active ← subU64 registry.active_intents 1
  let executed ← addU64 registry.executed_intents 1
  let registry2 : Registry :=
    { registry with active_intents := active, executed_intents := executed }
  let intent2 : Intent :=
    { intent with status := STATUS_EXECUTED, executed_at := some now,
                  executed_price := some executed_price,
                  tx_digest := some tx_digest }
  pure (registry2, intent2)

/-- `mark_failed` — the finalize-failure transition.  No capability,
signature or sender parameter exists in the source. -/
def mark_failed (registry : Registry) (intent : Intent)
    (_reason : List Nat) : Except MoveAbort (Registry × Intent) := do
  massert (intent.status = STATUS_EXECUTING) .EInvalidStatus
  let active ← subU64 registry.active_intents 1
  pure ({ registry with active_intents := active },
    { intent with status := STATUS_FAILED })

/-- `reset_to_active` — the recovery transition.  The source takes only
the intent: no clock, no claim timestamp, no threshold. -/
def reset_to_active (intent : Intent) : Except MoveAbort Intent := do
  massert (intent.status = STATUS_EXECUTING) .EInvalidStatus
  pure { intent with status := STATUS_ACTIVE }

/-! ### Transaction-level wrappers

On Sui, all of the functions above are `public`/`entry` functions of a
published module: any transaction sender may invoke them.  The wrappers
below make the sender of the invoking transaction explicit.  For
`mark_executing`, `mark_executed` and `mark_failed` the source function
has no sender, capability or signature parameter at all, so the wrapper
necessarily ignores the sender — which is exactly the point at issue in
the authorization claim. -/

def mark_executing_tx (_sender : Nat) (intent : Intent) (now : Nat) :
    Except MoveAbort Intent :=
  mark_executing intent now

def mark_executed_tx (_sender : Nat) (registry : Registry)
    (intent : Intent) (executed_price : Nat) (tx_digest : List Nat)
    (now : Nat) : Except MoveAbort (Registry × Intent) :=
  mark_executed registry intent executed_price tx_digest now

def mark_failed_tx (_sender : Nat) (registry : Registry) (intent : Intent)
    (reason : List Nat) : Except MoveAbort (Registry × Intent) :=
  mark_failed registry intent reason

/-! ### Global state and operation traces

A global state is the shared registry object plus every `Intent` object
shared so far (in creation order; the list index plays the role of the
object id).  An `Op` is one invocation of one of the module's
state-changing functions; a failed invocation is an aborted transaction
and leaves the state unchanged. -/

structure GState where
  registry : Registry
  intents : List Intent
deriving DecidableEq, Repr

/-- The state right after the module's `init`. -/
def initState : GState :=
  ⟨{ total_intents := 0, active_intents := 0, executed_intents := 0 }, []⟩

inductive Op where
  | create (encrypted_data : List Nat) (trigger_type trigger_value : Nat)
      (pair_hash : List Nat) (expires_at now sender : Nat)
  | cancel (idx sender : Nat)
  | markExecuting (idx now : Nat)
  | markExecuted (idx executed_price : Nat) (tx_digest : List Nat)
      (now : Nat)
  | markFailed (idx : Nat) (reason : List Nat)
  | reset (idx : Nat)
deriving DecidableEq, Repr

/-- Look up a shared `Intent` object by id. -/
def getIntent (s : GState) (idx : Nat) : Except MoveAbort Intent :=
  match s.intents[idx]? with
  | none => .error .ENoObject
  | some i => .ok i

/-- One transaction against the global state. -/
def applyOp (s : GState) : Op → Except MoveAbort GState
  | .create ed tt tv ph exp now sender => do
      let (r, i) ← create_intent s.registry ed tt tv ph exp now sender
      pure ⟨r, s.intents ++ [i]⟩
  | .cancel idx sender => do
      let i ← getIntent s idx
      let (r, i2) ← cancel_intent s.registry i sender
      pure ⟨r, s.intents.set idx i2⟩
  | .markExecuting idx now => do
      let i ← getIntent s idx
      let i2 ← mark_executing i now
      pure ⟨s.registry, s.intents.set idx i2⟩
  | .markExecuted idx price digest now => do
      let i ← getIntent s idx
      let (r, i2) ← mark_executed s.registry i price digest now
      pure ⟨r, s.intents.set idx i2⟩
  | .markFailed idx reason => do
      let i ← getIntent s idx
      let (r, i2) ← mark_failed s.registry i reason
      pure ⟨r, s.intents.set idx i2⟩
  | .reset idx => do
      let i ← getIntent s idx
      let i2 ← reset_to_active i
      pure ⟨s.registry, s.intents.set idx i2⟩

/-- Run one transaction; an abort rolls everything back. -/
def stepState (s : GState) (op : Op) : GState :=
  match applyOp s op with
  | .ok s2 => s2
  | .error _ => s

/-- Run a sequence of transactions from a starting state. -/
def runOps (ops : List Op) : GState :=
  ops.foldl stepState initState

/-- An intent counted by the registry's `active_intents` counter:
status Active or Executing. -/
def countedActive (i : Intent) : Bool :=
  i.status == STATUS_ACTIVE || i.status == STATUS_EXECUTING

/-- Execution-result fields are populated exactly in status Executed. -/
def execFieldsOk (i : Intent) : Prop :=
  (i.status ≠ STATUS_EXECUTED →
    i.executed_at = none ∧ i.executed_price = none ∧ i.tx_digest = none) ∧
  (i.status = STATUS_EXECUTED →
    i.executed_at.isSome ∧ i.executed_price.isSome ∧ i.tx_digest.isSome)

/-- The reachability invariant: the `active_intents` counter counts the
Active-or-Executing intents, and execution-result fields are populated
exactly on Executed intents. -/
def RInv (s : GState) : Prop :=
  s.registry.active_intents = s.intents.countP countedActive ∧
  ∀ i ∈ s.intents, execFieldsOk i

/-! ### Explicit-branch forms of the registry functions -/

theorem create_intent_eq (r : Registry) (ed : List Nat) (tt tv : Nat)
    (ph : List Nat) (exp now sender : Nat) :
    create_intent r ed tt tv ph exp now sender =
      if exp > now then
        if tt ≤ TRIGGER_PRICE_ABOVE then
          if r.total_intents + 1 < 2 ^ 64 then
            if r.active_intents + 1 < 2 ^ 64 then
              .ok ({ r with total_intents := r.total_intents + 1,
                            active_intents := r.active_intents + 1 },
                { owner := sender, encrypted_data := ed, created_at := now,
                  expires_at := exp, status := STATUS_ACTIVE,
                  trigger_type := tt, trigger_value := tv,
                  pair_hash := ph, executed_at := none,
                  executed_price := none, tx_digest := none })
            else .error .EArith
          else .error .EArith
        else .error .EInvalidTriggerType
      else .error .EIntentExpired := by
  simp only [create_intent, massert, addU64, bind, Except.bind, pure]
  split_ifs <;> rfl

theorem cancel_intent_eq (r : Registry) (i : Intent) (sender : Nat) :
    cancel_intent r i sender =
      if sender = i.owner then
        if i.status = STATUS_ACTIVE then
          if 1 ≤ r.active_intents then
            .ok ({ r with active_intents := r.active_intents - 1 },
              { i with status := STATUS_CANCELLED })
          else .error .EArith
        else .error .EInvalidStatus
      else .error .ENotOwner := by
  simp only [cancel_intent, massert, subU64, bind, Except.bind, pure]
  split_ifs <;> rfl

theorem mark_executing_eq (i : Intent) (now : Nat) :
    mark_executing i now =
      if i.status = STATUS_ACTIVE then
        if i.expires_at > now then
          .ok { i with status := STATUS_EXECUTING }
        else .error .EIntentExpired
      else .error .EAlreadyExecuting := by
  simp only [mark_executing, massert, bind, Except.bind, pure]
  split_ifs <;> rfl

theorem mark_executed_eq (r : Registry) (i : Intent) (price : Nat)
    (digest : List Nat) (now : Nat) :
    mark_executed r i price digest now =
      if i.status = STATUS_EXECUTING then
        if 1 ≤ r.active_intents then
          if r.executed_intents + 1 < 2 ^ 64 then
            .ok ({ r with active_intents := r.active_intents - 1,
                          executed_intents := r.executed_intents + 1 },
              { i with status := STATUS_EXECUTED, executed_at := some now,
                       executed_price := some price,
                       tx_digest := some digest })
          else .error .EArith
        else .error .EArith
      else .error .EInvalidStatus := by
  simp only [mark_executed, massert, subU64, addU64, bind, Except.bind, pure]
  split_ifs <;> rfl

theorem mark_failed_eq (r : Registry) (i : Intent) (reason : List Nat) :
    mark_failed r i reason =
      if i.status = STATUS_EXECUTING then
        if 1 ≤ r.active_intents then
          .ok ({ r with active_intents := r.active_intents - 1 },
            { i with status := STATUS_FAILED })
        else .error .EArith
      else .error .EInvalidStatus := by
  simp only [mark_failed, massert, subU64, bind, Except.bind, pure]
  split_ifs <;> rfl

theorem reset_to_active_eq (i : Intent) :
    reset_to_active i =
      if i.status = STATUS_EXECUTING then
        .ok { i with status := STATUS_ACTIVE }
      else .error .EInvalidStatus := by
  simp only [reset_to_active, massert, bind, Except.bind, pure]
  split_ifs <;> rfl

/-! ### The reachability invariant is preserved by every transaction -/

theorem countP_set_add (p : Intent → Bool) :
    ∀ (l : List Intent) (k : Nat) (a b : Intent), l[k]? = some a →
      (l.set k b).countP p + (if p a then 1 else 0) =
        l.countP p + (if p b then 1 else 0) := by
  intro l
  induction l with
  | nil => intro k a b h; simp at h
  | cons x xs ih =>
      intro k a b h
      cases k with
      | zero =>
          simp only [List.getElem?_cons_zero, Option.some.injEq] at h
          subst h
          simp only [List.set_cons_zero, List.countP_cons]
          omega
      | succ k =>
          simp only [List.getElem?_cons_succ] at h
          simp only [List.set_cons_succ, List.countP_cons]
          have := ih k a b h
          omega

theorem mem_of_mem_set :
    ∀ (l : List Intent) (k : Nat) (b i : Intent), i ∈ l.set k b →
      i ∈ l ∨ i = b := by
  intro l
  induction l with
  | nil => intro k b i h; simp at h
  | cons x xs ih =>
      intro k b i h
      cases k with
      | zero =>
          simp only [List.set_cons_zero, List.mem_cons] at h
          rcases h with h | h
          · right; exact h
          · left; exact List.mem_cons_of_mem _ h
      | succ k =>
          simp only [List.set_cons_succ, List.mem_cons] at h
          rcases h with h | h
          · left; simp [h]
          · rcases ih k b i h with h2 | h2
            · left; exact List.mem_cons_of_mem _ h2
            · right; exact h2

theorem mem_of_idx_some :
    ∀ (l : List Intent) (k : Nat) (a : Intent), l[k]? = some a → a ∈ l := by
  intro l
  induction l with
  | nil => intro k a h; simp at h
  | cons x xs ih =>
      intro k a h
      cases k with
      | zero =>
          simp only [List.getElem?_cons_zero, Option.some.injEq] at h
          simp [h]
      | succ k =>
          simp only [List.getElem?_cons_succ] at h
          exact List.mem_cons_of_mem _ (ih k a h)

theorem getIntent_some (s : GState) (idx : Nat) (i : Intent)
    (h : s.intents[idx]? = some i) : getIntent s idx = .ok i := by
  simp [getIntent, h]

theorem getIntent_none (s : GState) (idx : Nat)
    (h : s.intents[idx]? = none) : getIntent s idx = .error .ENoObject := by
  simp [getIntent, h]

theorem rinv_step (s : GState) (op : Op) (h : RInv s) :
    RInv (stepState s op) := by
  obtain ⟨hcnt, hfld⟩ := h
  cases op with
  | create ed tt tv ph exp now sender =>
      simp only [stepState, applyOp, create_intent_eq]
      split_ifs <;>
        simp only [bind, Except.bind, pure, Except.pure] <;>
        try exact ⟨hcnt, hfld⟩
      constructor
      · simp only [List.countP_append, List.countP_cons, List.countP_nil,
          countedActive, STATUS_ACTIVE, STATUS_EXECUTING]
        simp [hcnt]
      · intro i hi
        rcases List.mem_append.1 hi with hi | hi
        · exact hfld i hi
        · simp only [List.mem_singleton] at hi
          subst hi
          constructor
          · intro _; exact ⟨rfl, rfl, rfl⟩
          · intro hst; simp [STATUS_ACTIVE, STATUS_EXECUTED] at hst
  | cancel idx sender =>
      simp only [stepState, applyOp]
      cases hidx : s.intents[idx]? with
      | none =>
          rw [getIntent_none s idx hidx]
          exact ⟨hcnt, hfld⟩
      | some i =>
          rw [getIntent_some s idx i hidx]
          simp only [bind, Except.bind]
          rw [cancel_intent_eq]
          split_ifs with h1 h2 h3 <;>
            simp only [pure, Except.pure] <;>
            try exact ⟨hcnt, hfld⟩
          constructor
          · have hc := countP_set_add countedActive s.intents idx i
              { i with status := STATUS_CANCELLED } hidx
            simp only [countedActive, STATUS_ACTIVE, STATUS_EXECUTING,
              STATUS_CANCELLED, h2] at hc ⊢
            simp at hc
            omega
          · intro j hj
            rcases mem_of_mem_set _ _ _ _ hj with hj | hj
            · exact hfld j hj
            · subst hj
              have hfo := hfld i (mem_of_idx_some _ _ _ hidx)
              constructor
              · intro _
                exact hfo.1 (by simp [h2, STATUS_ACTIVE, STATUS_EXECUTED])
              · intro hst
                simp [STATUS_CANCELLED, STATUS_EXECUTED] at hst
  | markExecuting idx now =>
      simp only [stepState, applyOp]
      cases hidx : s.intents[idx]? with
      | none =>
          rw [getIntent_none s idx hidx]
          exact ⟨hcnt, hfld⟩
      | some i =>
          rw [getIntent_some s idx i hidx]
          simp only [bind, Except.bind]
          rw [mark_executing_eq]
          split_ifs with h1 h2 <;>
            simp only [pure, Except.pure] <;>
            try exact ⟨hcnt, hfld⟩
          constructor
          · have hc := countP_set_add countedActive s.intents idx i
              { i with status := STATUS_EXECUTING } hidx
            simp only [countedActive, STATUS_ACTIVE, STATUS_EXECUTING, h1]
              at hc ⊢
            simp at hc
            omega
          · intro j hj
            rcases mem_of_mem_set _ _ _ _ hj with hj | hj
            · exact hfld j hj
            · subst hj
              have hfo := hfld i (mem_of_idx_some _ _ _ hidx)
              constructor
              · intro _
                exact hfo.1 (by simp [h1, STATUS_ACTIVE, STATUS_EXECUTED])
              · intro hst
                simp [STATUS_EXECUTING, STATUS_EXECUTED] at hst
  | markExecuted idx price digest now =>
      simp only [stepState, applyOp]
      cases hidx : s.intents[idx]? with
      | none =>
          rw [getIntent_none s idx hidx]
          exact ⟨hcnt, hfld⟩
      | some i =>
          rw [getIntent_some s idx i hidx]
          simp only [bind, Except.bind]
          rw [mark_executed_eq]
          split_ifs with h1 h2 h3 <;>
            simp only [pure, Except.pure] <;>
            try exact ⟨hcnt, hfld⟩
          constructor
          · have hc := countP_set_add countedActive s.intents idx i
              { i with status := STATUS_EXECUTED, executed_at := some now,
                       executed_price := some price,
                       tx_digest := some digest } hidx
            simp only [countedActive, STATUS_ACTIVE, STATUS_EXECUTING,
              STATUS_EXECUTED, h1] at hc ⊢
            simp at hc
            omega
          · intro j hj
            rcases mem_of_mem_set _ _ _ _ hj with hj | hj
            · exact hfld j hj
            · subst hj
              constructor
              · intro hst
                simp [STATUS_EXECUTED] at hst
              · intro _
                exact ⟨rfl, rfl, rfl⟩
  | markFailed idx reason =>
      simp only [stepState, applyOp]
      cases hidx : s.intents[idx]? with
      | none =>
          rw [getIntent_none s idx hidx]
          exact ⟨hcnt, hfld⟩
      | some i =>
          rw [getIntent_some s idx i hidx]
          simp only [bind, Except.bind]
          rw [mark_failed_eq]
          split_ifs with h1 h2 <;>
            simp only [pure, Except.pure] <;>
            try exact ⟨hcnt, hfld⟩
          constructor
          · have hc := countP_set_add countedActive s.intents idx i
              { i with status := STATUS_FAILED } hidx
            simp only [countedActive, STATUS_ACTIVE, STATUS_EXECUTING,
              STATUS_FAILED, h1] at hc ⊢
            simp at hc
            omega
          · intro j hj
            rcases mem_of_mem_set _ _ _ _ hj with hj | hj
            · exact hfld j hj
            · subst hj
              have hfo := hfld i (mem_of_idx_some _ _ _ hidx)
              constructor
              · intro _
                exact hfo.1 (by simp [h1, STATUS_EXECUTING, STATUS_EXECUTED])
              · intro hst
                simp [STATUS_FAILED, STATUS_EXECUTED] at hst
  | reset idx =>
      simp only [stepState, applyOp]
      cases hidx : s.intents[idx]? with
      | none =>
          rw [getIntent_none s idx hidx]
          exact ⟨hcnt, hfld⟩
      | some i =>
          rw [getIntent_some s idx i hidx]
          simp only [bind, Except.bind]
          rw [reset_to_active_eq]
          split_ifs with h1 <;>
            simp only [pure, Except.pure] <;>
            try exact ⟨hcnt, hfld⟩
          constructor
          · have hc := countP_set_add countedActive s.intents idx i
              { i with status := STATUS_ACTIVE } hidx
            simp only [countedActive, STATUS_ACTIVE, STATUS_EXECUTING, h1]
              at hc ⊢
            simp at hc
            omega
          · intro j hj
            rcases mem_of_mem_set _ _ _ _ hj with hj | hj
            · exact hfld j hj
            · subst hj
              have hfo := hfld i (mem_of_idx_some _ _ _ hidx)
              constructor
              · intro _
                exact hfo.1 (by simp [h1, STATUS_EXECUTING, STATUS_EXECUTED])
              · intro hst
                simp [STATUS_ACTIVE, STATUS_EXECUTED] at hst

theorem rinv_initState : RInv initState := by
  constructor <;> simp [initState, RInv]

theorem rinv_run (ops : List Op) : RInv (runOps ops) := by
  unfold runOps
  have h : ∀ (l : List Op) (s : GState), RInv s →
      RInv (l.foldl stepState s) := by
    intro l
    induction l with
    | nil => intro s hs; exact hs
    | cons op rest ih =>
        intro s hs
        exact ih (stepState s op) (rinv_step s op hs)
  exact h ops initState rinv_initState

/-! ### Further index helpers -/

theorem idx_append_of_some :
    ∀ (l l2 : List Intent) (k : Nat) (a : Intent), l[k]? = some a →
      (l ++ l2)[k]? = some a := by
  intro l
  induction l with
  | nil => intro l2 k a h; simp at h
  | cons x xs ih =>
      intro l2 k a h
      cases k with
      | zero => simpa using h
      | succ k =>
          simp only [List.getElem?_cons_succ] at h
          simp only [List.cons_append, List.getElem?_cons_succ]
          exact ih l2 k a h

theorem idx_set_self :
    ∀ (l : List Intent) (k : Nat) (a b : Intent), l[k]? = some a →
      (l.set k b)[k]? = some b := by
  intro l
  induction l with
  | nil => intro k a b h; simp at h
  | cons x xs ih =>
      intro k a b h
      cases k with
      | zero => simp
      | succ k =>
          simp only [List.getElem?_cons_succ] at h
          simp only [List.set_cons_succ, List.getElem?_cons_succ]
          exact ih k a b h

theorem idx_set_ne :
    ∀ (l : List Intent) (m k : Nat) (b : Intent), m ≠ k →
      (l.set m b)[k]? = l[k]? := by
  intro l
  induction l with
  | nil => intro m k b _; simp
  | cons x xs ih =>
      intro m k b hne
      cases m with
      | zero =>
          cases k with
          | zero => exact absurd rfl hne
          | succ k => simp
      | succ m =>
          cases k with
          | zero => simp
          | succ k =>
              simp only [List.set_cons_succ, List.getElem?_cons_succ]
              exact ih m k b (fun h => hne (by simp [h]))

/-! ### Sample objects used in witnesses and counterexamples -/

/-- An Active, unexpired intent owned by address 1
(expiry 100 ms, trigger price-below 50). -/
def sampleActive : Intent :=
  { owner := 1, encrypted_data := [10], created_at := 0, expires_at := 100,
    status := STATUS_ACTIVE, trigger_type := TRIGGER_PRICE_BELOW,
    trigger_value := 50, pair_hash := [2], executed_at := none,
    executed_price := none, tx_digest := none }

/-- `sampleActive` after a successful claim. -/
def sampleExecuting : Intent :=
  { sampleActive with status := STATUS_EXECUTING }

/-- A registry holding exactly the one active sample intent. -/
def sampleRegistry : Registry :=
  { total_intents := 1, active_intents := 1, executed_intents := 0 }

/-! ### Claims -/

/-- Claim C1 — counterexample.  The claim says every privileged registry
operation verifies the caller's identity against the single registered
`EnclaveIdentity` and fails with `Unauthorized` for every non-matching
caller.  In the source, `mark_executing`, `mark_executed` and
`mark_failed` take no capability, signature or sender at all.  Concretely:
the registered enclave key is `[7]`, the calling transaction's sender is
address 8 (identity `[8]`, which does not match), and all three
operations still succeed and change state. -/
theorem c1_counterexample :
    (create_enclave_cap [7]).enclave_pk ≠ [8] ∧
    mark_executing_tx 8 sampleActive 50 = .ok sampleExecuting ∧
    mark_executed_tx 8 sampleRegistry sampleExecuting 55 [9] 60 =
      .ok ({ sampleRegistry with active_intents := 0, executed_intents := 1 },
        { sampleExecuting with status := STATUS_EXECUTED, executed_at := some 60, executed_price := some 55, tx_digest := some [9] }) ∧
    mark_failed_tx 8 sampleRegistry sampleExecuting [3] =
      .ok ({ sampleRegistry with active_intents := 0 },
        { sampleExecuting with status := STATUS_FAILED }) := by
  refine ⟨by decide, rfl, rfl, rfl⟩

/-- Claim C1 — amended: `mark_executing`, `mark_executed` and
`mark_failed` perform no caller-identity or signature verification
whatsoever — their result is independent of the transaction sender and
no `Unauthorized` failure exists; they are gated only by the
status/expiry preconditions (failing calls abort the transaction and
leave intent and registry unchanged).  The `EnclaveCap` capability
exists in the module but is consumed by none of them. -/
theorem c1_no_auth_check (sender sender2 : Nat) (r : Registry)
    (i : Intent) (price : Nat) (digest reason : List Nat) (now : Nat) :
    mark_executing_tx sender i now = mark_executing_tx sender2 i now ∧
    mark_executed_tx sender r i price digest now =
      mark_executed_tx sender2 r i price digest now ∧
    mark_failed_tx sender r i reason = mark_failed_tx sender2 r i reason ∧
    (i.status ≠ STATUS_ACTIVE →
      mark_executing_tx sender i now = .error .EAlreadyExecuting) ∧
    (i.status ≠ STATUS_EXECUTING →
      mark_executed_tx sender r i price digest now =
        .error .EInvalidStatus) ∧
    (i.status ≠ STATUS_EXECUTING →
      mark_failed_tx sender r i reason = .error .EInvalidStatus) := by
  refine ⟨rfl, rfl, rfl, ?_, ?_, ?_⟩
  · intro h
    rw [mark_executing_tx, mark_executing_eq, if_neg h]
  · intro h
    rw [mark_executed_tx, mark_executed_eq, if_neg h]
  · intro h
    rw [mark_failed_tx, mark_failed_eq, if_neg h]

/-- Witness for `c1_no_auth_check` at concrete input: an already
Executing intent cannot be claimed again, by any sender. -/
theorem c1_no_auth_check_witness :
    mark_executing_tx 8 sampleExecuting 50 = .error .EAlreadyExecuting :=
  ((c1_no_auth_check 8 9 sampleRegistry sampleExecuting 55 [9] [3]
    50).2.2.2.1) (by decide)

/-- Claim C2 — counterexample.  The claim says recovery fails with
`NotStuck` whenever the elapsed time since the claim is below
`stuck_threshold`.  In the source, `reset_to_active` takes only the
intent — no clock, no claim timestamp, no threshold — and no `NotStuck`
error exists.  Concretely: the intent is claimed at time 0 ms, recovery
is attempted with 1 ms elapsed against a 600000 ms threshold, and it
succeeds immediately instead of failing. -/
theorem c2_counterexample :
    mark_executing sampleActive 0 = .ok sampleExecuting ∧
    1 - 0 < 600000 ∧
    reset_to_active sampleExecuting =
      .ok { sampleExecuting with status := STATUS_ACTIVE } := by
  refine ⟨rfl, by decide, rfl⟩

/-- Claim C2 — amended: `reset_to_active` fails with `EInvalidStatus`
for every intent whose status is not Executing, and performs no
elapsed-time check at all: every Executing intent is immediately
eligible for recovery, regardless of how recently it was claimed and of
any stuck threshold.  On success the status returns to Active. -/
theorem c2_reset_behavior (i : Intent) :
    (i.status = STATUS_EXECUTING →
      reset_to_active i = .ok { i with status := STATUS_ACTIVE }) ∧
    (i.status ≠ STATUS_EXECUTING →
      reset_to_active i = .error .EInvalidStatus) := by
  constructor
  · intro h
    rw [reset_to_active_eq, if_pos h]
  · intro h
    rw [reset_to_active_eq, if_neg h]

/-- Witness for `c2_reset_behavior` at a concrete Executing intent. -/
theorem c2_reset_behavior_witness :
    reset_to_active sampleExecuting =
      .ok { sampleExecuting with status := STATUS_ACTIVE } :=
  (c2_reset_behavior sampleExecuting).1 (by decide)

/-- Claim C3: `mark_executing` fails with the status-precondition abort
(`EAlreadyExecuting`, the module's InvalidState code for this operation)
for every intent whose status is not Active; for an Active intent with
`expires_at ≤ now` it fails with `EIntentExpired`, so an expired intent
can never transition to Executing regardless of its trigger; on success
the status becomes Executing and nothing else changes; and since the
whole check-and-update is one atomic Move call, a second claim on the
resulting intent always fails until it is finalized or recovered. -/
theorem c3_claim_exclusivity (i : Intent) (now : Nat) :
    (i.status ≠ STATUS_ACTIVE →
      mark_executing i now = .error .EAlreadyExecuting) ∧
    (i.status = STATUS_ACTIVE → i.expires_at ≤ now →
      mark_executing i now = .error .EIntentExpired) ∧
    (i.expires_at ≤ now → ∀ i2, mark_executing i now ≠ .ok i2) ∧
    (∀ i2, mark_executing i now = .ok i2 →
      i2 = { i with status := STATUS_EXECUTING } ∧
      i2.status = STATUS_EXECUTING) ∧
    (∀ i2 now2, mark_executing i now = .ok i2 →
      ∀ i3, mark_executing i2 now2 ≠ .ok i3) := by
  refine ⟨?_, ?_, ?_, ?_, ?_⟩
  · intro h
    rw [mark_executing_eq, if_neg h]
  · intro h1 h2
    rw [mark_executing_eq, if_pos h1, if_neg (by omega)]
  · intro h2 i2
    rw [mark_executing_eq]
    split_ifs with h1 h3
    · omega
    · simp
    · simp
  · intro i2 h
    rw [mark_executing_eq] at h
    split_ifs at h with h1 h2
    · simp only [Except.ok.injEq] at h
      subst h
      exact ⟨rfl, rfl⟩
  · intro i2 now2 h i3
    rw [mark_executing_eq] at h
    split_ifs at h with h1 h2
    simp only [Except.ok.injEq] at h
    subst h
    rw [mark_executing_eq]
    have : STATUS_EXECUTING ≠ STATUS_ACTIVE := by decide
    rw [if_neg this]
    simp

/-- Witness for `c3_claim_exclusivity`: claiming the sample intent at
time 50 succeeds; claiming the result again fails. -/
theorem c3_claim_exclusivity_witness :
    ∀ i3, mark_executing sampleExecuting 60 ≠ .ok i3 :=
  (c3_claim_exclusivity sampleActive 50).2.2.2.2 sampleExecuting 60 rfl

/-- Claim C4: `cancel_intent` succeeds only when the sender is the owner
and the status is Active (then the status becomes Cancelled and
`active_intents` is decremented, the other counters untouched); a
non-owner caller fails with `ENotOwner`, an owner caller on a non-Active
intent fails with `EInvalidStatus`, and a failing call aborts the
transaction, producing no state at all. -/
theorem c4_cancel_authorization (r : Registry) (i : Intent)
    (sender : Nat) :
    (sender ≠ i.owner → cancel_intent r i sender = .error .ENotOwner) ∧
    (sender = i.owner → i.status ≠ STATUS_ACTIVE →
      cancel_intent r i sender = .error .EInvalidStatus) ∧
    (∀ r2 i2, cancel_intent r i sender = .ok (r2, i2) →
      sender = i.owner ∧ i.status = STATUS_ACTIVE ∧
      i2 = { i with status := STATUS_CANCELLED } ∧
      r2.active_intents + 1 = r.active_intents ∧
      r2.total_intents = r.total_intents ∧
      r2.executed_intents = r.executed_intents) := by
  refine ⟨?_, ?_, ?_⟩
  · intro h
    rw [cancel_intent_eq, if_neg h]
  · intro h1 h2
    rw [cancel_intent_eq, if_pos h1, if_neg h2]
  · intro r2 i2 h
    rw [cancel_intent_eq] at h
    split_ifs at h with h1 h2 h3
    simp only [Except.ok.injEq, Prod.mk.injEq] at h
    obtain ⟨hr, hi⟩ := h
    subst hr
    subst hi
    refine ⟨h1, h2, rfl, ?_, rfl, rfl⟩
    show r.active_intents - 1 + 1 = r.active_intents
    omega

/-- Witness for `c4_cancel_authorization`: address 2 is not the owner of
the sample intent (owner 1), so its cancel attempt fails. -/
theorem c4_cancel_authorization_witness :
    cancel_intent sampleRegistry sampleActive 2 = .error .ENotOwner :=
  (c4_cancel_authorization sampleRegistry sampleActive 2).1 (by decide)

/-- Claim C5: `create_intent` fails with `EIntentExpired` (the module's
InvalidExpiry code) whenever `expires_at ≤ now`, and with
`EInvalidTriggerType` whenever the trigger kind is outside
{`TRIGGER_PRICE_BELOW`, `TRIGGER_PRICE_ABOVE`} (the expiry check runs
first); on success the new intent is Active, owned by the sender, has
`created_at = now < expires_at`, and both `total_intents` and
`active_intents` are incremented by exactly one. -/
theorem c5_create_validation (r : Registry) (ed : List Nat) (tt tv : Nat)
    (ph : List Nat) (exp now sender : Nat) :
    (exp ≤ now →
      create_intent r ed tt tv ph exp now sender =
        .error .EIntentExpired) ∧
    (exp > now → ¬ tt ≤ TRIGGER_PRICE_ABOVE →
      create_intent r ed tt tv ph exp now sender =
        .error .EInvalidTriggerType) ∧
    (∀ r2 i, create_intent r ed tt tv ph exp now sender = .ok (r2, i) →
      i.status = STATUS_ACTIVE ∧ i.owner = sender ∧
      i.created_at = now ∧ i.expires_at = exp ∧
      i.expires_at > i.created_at ∧
      i.trigger_type ≤ TRIGGER_PRICE_ABOVE ∧
      r2.total_intents = r.total_intents + 1 ∧
      r2.active_intents = r.active_intents + 1 ∧
      r2.executed_intents = r.executed_intents) := by
  refine ⟨?_, ?_, ?_⟩
  · intro h
    rw [create_intent_eq, if_neg (by omega)]
  · intro h1 h2
    rw [create_intent_eq, if_pos h1, if_neg h2]
  · intro r2 i h
    rw [create_intent_eq] at h
    split_ifs at h with h1 h2 h3 h4
    simp only [Except.ok.injEq, Prod.mk.injEq] at h
    obtain ⟨hr, hi⟩ := h
    subst hr
    subst hi
    exact ⟨rfl, rfl, rfl, rfl, h1, h2, rfl, rfl, rfl⟩

/-- Witness for `c5_create_validation`: creating with an already-passed
expiry fails with the expiry abort. -/
theorem c5_create_validation_witness :
    create_intent sampleRegistry [10] 0 50 [2] 40 40 1 =
      .error .EIntentExpired :=
  (c5_create_validation sampleRegistry [10] 0 50 [2] 40 40 1).1
    (by decide)

/-- Claim C6: `mark_executed` fails with `EInvalidStatus` for every
intent whose status is not Executing; on success the status becomes
Executed, `executed_at`/`executed_price`/`tx_digest` are populated with
the finalization time, realized price and transaction digest,
`active_intents` is decremented and `executed_intents` incremented; and
in every state reachable from `init` those three fields are populated
exactly on intents in status Executed — empty in every other status. -/
theorem c6_finalize_success (r : Registry) (i : Intent) (price : Nat)
    (digest : List Nat) (now : Nat) :
    (i.status ≠ STATUS_EXECUTING →
      mark_executed r i price digest now = .error .EInvalidStatus) ∧
    (∀ r2 i2, mark_executed r i price digest now = .ok (r2, i2) →
      i2.status = STATUS_EXECUTED ∧ i2.executed_at = some now ∧
      i2.executed_price = some price ∧ i2.tx_digest = some digest ∧
      r2.active_intents + 1 = r.active_intents ∧
      r2.executed_intents = r.executed_intents + 1 ∧
      r2.total_intents = r.total_intents) ∧
    (∀ ops : List Op, ∀ j ∈ (runOps ops).intents,
      (j.status ≠ STATUS_EXECUTED → j.executed_at = none ∧
        j.executed_price = none ∧ j.tx_digest = none) ∧
      (j.status = STATUS_EXECUTED → j.executed_at.isSome ∧
        j.executed_price.isSome ∧ j.tx_digest.isSome)) := by
  refine ⟨?_, ?_, ?_⟩
  · intro h
    rw [mark_executed_eq, if_neg h]
  · intro r2 i2 h
    rw [mark_executed_eq] at h
    split_ifs at h with h1 h2 h3
    simp only [Except.ok.injEq, Prod.mk.injEq] at h
    obtain ⟨hr, hi⟩ := h
    subst hr
    subst hi
    refine ⟨rfl, rfl, rfl, rfl, ?_, rfl, rfl⟩
    show r.active_intents - 1 + 1 = r.active_intents
    omega
  · intro ops j hj
    exact (rinv_run ops).2 j hj

/-- Witness for `c6_finalize_success`: finalizing an intent that is
still Active fails with `EInvalidStatus`. -/
theorem c6_finalize_success_witness :
    mark_executed sampleRegistry sampleActive 55 [9] 60 =
      .error .EInvalidStatus :=
  (c6_finalize_success sampleRegistry sampleActive 55 [9] 60).1
    (by decide)

/-- The status transition graph of §4.3 of the specification, as a
decidable edge relation on the module's status codes:
Active→Cancelled, Active→Executing, Executing→Executed,
Executing→Failed and the explicit recovery edge Executing→Active.
(The lazy Active→Expired edge involves no status write at all — no
operation of the module ever stores `STATUS_EXPIRED`.) -/
def allowed_edge (a b : Nat) : Bool :=
  (a == STATUS_ACTIVE && b == STATUS_CANCELLED) ||
  (a == STATUS_ACTIVE && b == STATUS_EXECUTING) ||
  (a == STATUS_EXECUTING && b == STATUS_EXECUTED) ||
  (a == STATUS_EXECUTING && b == STATUS_FAILED) ||
  (a == STATUS_EXECUTING && b == STATUS_ACTIVE)

/-- Claim C7: any successful transaction leaves every pre-existing
intent either untouched or moved along exactly one edge of the §4.3
state machine; no operation produces any other transition — in
particular none out of a terminal status (Cancelled, Executed, Failed),
and never Cancelled→Executing. -/
theorem c7_state_machine (s : GState) (op : Op) (s2 : GState)
    (h : applyOp s op = .ok s2) :
    ∀ (k : Nat) (j : Intent), s.intents[k]? = some j →
      ∃ j2 : Intent, s2.intents[k]? = some j2 ∧
        (j2 = j ∨ allowed_edge j.status j2.status = true) := by
  cases op with
  | create ed tt tv ph exp now sender =>
      simp only [applyOp, create_intent_eq] at h
      split_ifs at h with h1 h2 h3 h4
      · simp only [bind, Except.bind, pure, Except.pure,
          Except.ok.injEq] at h
        subst h
        intro k j hk
        exact ⟨j, idx_append_of_some _ _ _ _ hk, Or.inl rfl⟩
      all_goals
        simp only [bind, Except.bind] at h
        exact Except.noConfusion h
  | cancel idx sender =>
      simp only [applyOp] at h
      cases hidx : s.intents[idx]? with
      | none =>
          rw [getIntent_none s idx hidx] at h
          simp only [bind, Except.bind] at h
          exact Except.noConfusion h
      | some i =>
          rw [getIntent_some s idx i hidx] at h
          simp only [bind, Except.bind] at h
          rw [cancel_intent_eq] at h
          split_ifs at h with h1 h2 h3
          · simp only [bind, Except.bind, pure, Except.pure,
              Except.ok.injEq] at h
            subst h
            intro k j hk
            by_cases hk2 : idx = k
            · subst hk2
              rw [hidx] at hk
              injection hk with hk
              subst hk
              refine ⟨_, idx_set_self _ _ _ _ hidx, Or.inr ?_⟩
              simp [allowed_edge, h2, STATUS_ACTIVE, STATUS_CANCELLED]
            · exact ⟨j, by rw [idx_set_ne _ _ _ _ hk2]; exact hk,
                Or.inl rfl⟩
  | markExecuting idx now =>
      simp only [applyOp] at h
      cases hidx : s.intents[idx]? with
      | none =>
          rw [getIntent_none s idx hidx] at h
          simp only [bind, Except.bind] at h
          exact Except.noConfusion h
      | some i =>
          rw [getIntent_some s idx i hidx] at h
          simp only [bind, Except.bind] at h
          rw [mark_executing_eq] at h
          split_ifs at h with h1 h2
          · simp only [bind, Except.bind, pure, Except.pure,
              Except.ok.injEq] at h
            subst h
            intro k j hk
            by_cases hk2 : idx = k
            · subst hk2
              rw [hidx] at hk
              injection hk with hk
              subst hk
              refine ⟨_, idx_set_self _ _ _ _ hidx, Or.inr ?_⟩
              simp [allowed_edge, h1, STATUS_ACTIVE, STATUS_EXECUTING]
            · exact ⟨j, by rw [idx_set_ne _ _ _ _ hk2]; exact hk,
                Or.inl rfl⟩
  | markExecuted idx price digest now =>
      simp only [applyOp] at h
      cases hidx : s.intents[idx]? with
      | none =>
          rw [getIntent_none s idx hidx] at h
          simp only [bind, Except.bind] at h
          exact Except.noConfusion h
      | some i =>
          rw [getIntent_some s idx i hidx] at h
          simp only [bind, Except.bind] at h
          rw [mark_executed_eq] at h
          split_ifs at h with h1 h2 h3
          · simp only [bind, Except.bind, pure, Except.pure,
              Except.ok.injEq] at h
            subst h
            intro k j hk
            by_cases hk2 : idx = k
            · subst hk2
              rw [hidx] at hk
              injection hk with hk
              subst hk
              refine ⟨_, idx_set_self _ _ _ _ hidx, Or.inr ?_⟩
              simp [allowed_edge, h1, STATUS_EXECUTING, STATUS_EXECUTED]
            · exact ⟨j, by rw [idx_set_ne _ _ _ _ hk2]; exact hk,
                Or.inl rfl⟩
  | markFailed idx reason =>
      simp only [applyOp] at h
      cases hidx : s.intents[idx]? with
      | none =>
          rw [getIntent_none s idx hidx] at h
          simp only [bind, Except.bind] at h
          exact Except.noConfusion h
      | some i =>
          rw [getIntent_some s idx i hidx] at h
          simp only [bind, Except.bind] at h
          rw [mark_failed_eq] at h
          split_ifs at h with h1 h2
          · simp only [bind, Except.bind, pure, Except.pure,
              Except.ok.injEq] at h
            subst h
            intro k j hk
            by_cases hk2 : idx = k
            · subst hk2
              rw [hidx] at hk
              injection hk with hk
              subst hk
              refine ⟨_, idx_set_self _ _ _ _ hidx, Or.inr ?_⟩
              simp [allowed_edge, h1, STATUS_EXECUTING, STATUS_FAILED]
            · exact ⟨j, by rw [idx_set_ne _ _ _ _ hk2]; exact hk,
                Or.inl rfl⟩
  | reset idx =>
      simp only [applyOp] at h
      cases hidx : s.intents[idx]? with
      | none =>
          rw [getIntent_none s idx hidx] at h
          simp only [bind, Except.bind] at h
          exact Except.noConfusion h
      | some i =>
          rw [getIntent_some s idx i hidx] at h
          simp only [bind, Except.bind] at h
          rw [reset_to_active_eq] at h
          split_ifs at h with h1
          · simp only [bind, Except.bind, pure, Except.pure,
              Except.ok.injEq] at h
            subst h
            intro k j hk
            by_cases hk2 : idx = k
            · subst hk2
              rw [hidx] at hk
              injection hk with hk
              subst hk
              refine ⟨_, idx_set_self _ _ _ _ hidx, Or.inr ?_⟩
              simp [allowed_edge, h1, STATUS_EXECUTING, STATUS_ACTIVE]
            · exact ⟨j, by rw [idx_set_ne _ _ _ _ hk2]; exact hk,
                Or.inl rfl⟩

/-- Witness for `c7_state_machine`: cancelling the one intent of a
concrete one-intent state moves it along the Active→Cancelled edge. -/
theorem c7_state_machine_witness :
    ∃ j2, (GState.mk { sampleRegistry with active_intents := 0 }
        [{ sampleActive with status := STATUS_CANCELLED }]).intents[0]? =
        some j2 ∧
      (j2 = sampleActive ∨
        allowed_edge sampleActive.status j2.status = true) :=
  c7_state_machine ⟨sampleRegistry, [sampleActive]⟩ (.cancel 0 1)
    ⟨{ sampleRegistry with active_intents := 0 },
      [{ sampleActive with status := STATUS_CANCELLED }]⟩ rfl 0
    sampleActive rfl

/-- Claim C10 (implicit): starting from `init`, after any sequence of
transactions the `active_intents` counter equals the number of intents
whose status is Active or Executing — an Executing intent is still
counted; in particular the claim transition (`mark_executing`) and the
recovery transition (`reset_to_active`) never touch the registry, so
only `create_intent` (+1), `cancel_intent` (−1), `mark_executed` (−1)
and `mark_failed` (−1) change the counter. -/
theorem c10_active_counter :
    (∀ ops : List Op, (runOps ops).registry.active_intents =
      (runOps ops).intents.countP countedActive) ∧
    (∀ (s : GState) (idx now : Nat),
      (stepState s (.markExecuting idx now)).registry = s.registry) ∧
    (∀ (s : GState) (idx : Nat),
      (stepState s (.reset idx)).registry = s.registry) := by
  refine ⟨fun ops => (rinv_run ops).1, ?_, ?_⟩
  · intro s idx now
    simp only [stepState, applyOp]
    cases hidx : s.intents[idx]? with
    | none =>
        rw [getIntent_none s idx hidx]
        simp [bind, Except.bind]
    | some i =>
        rw [getIntent_some s idx i hidx]
        simp only [bind, Except.bind]
        rw [mark_executing_eq]
        split_ifs <;> simp [pure, Except.pure]
  · intro s idx
    simp only [stepState, applyOp]
    cases hidx : s.intents[idx]? with
    | none =>
        rw [getIntent_none s idx hidx]
        simp [bind, Except.bind]
    | some i =>
        rw [getIntent_some s idx i hidx]
        simp only [bind, Except.bind]
        rw [reset_to_active_eq]
        split_ifs <;> simp [pure, Except.pure]

end IntentRegistry

namespace LimitOrders

/-!
Embedding of the trigger evaluation of the limit-orders trade page
(`fetchAllPrices`, the `shouldTrigger` switch).  Prices are JavaScript
numbers compared with `<=` / `>=`; they are modelled as rationals, which
have the same order behaviour on the finite values occurring here.
-/

/-- `type` field of a `LimitOrder`: "limit" | "stop-loss" |
"take-profit". -/
inductive OrderKind where
  | limit
  | stopLoss
  | takeProfit
deriving DecidableEq, Repr

/-- `side` field: "buy" | "sell". -/
inductive Side where
  | buy
  | sell
deriving DecidableEq, Repr

/-- The `shouldTrigger` computation of the price-polling effect, branch
for branch from the source `switch (order.type)`:
limit — buy triggers at `currentPrice <= triggerPrice`, sell at
`currentPrice >= triggerPrice`; stop-loss — sell at `<=`, otherwise
`>=`; take-profit — sell at `>=`, otherwise `<=`. -/
def shouldTrigger (kind : OrderKind) (side : Side)
    (currentPrice triggerPrice : ℚ) : Bool :=
  match kind with
  | .limit =>
      match side with
      | .buy => currentPrice ≤ triggerPrice
      | .sell => currentPrice ≥ triggerPrice
  | .stopLoss =>
      match side with
      | .sell => currentPrice ≤ triggerPrice
      | .buy => currentPrice ≥ triggerPrice
  | .takeProfit =>
      match side with
      | .sell => currentPrice ≥ triggerPrice
      | .buy => currentPrice ≤ triggerPrice

/-- Claim C8: every trigger branch is boundary-inclusive, and each
(kind, side) combination evaluates to exactly one of the two spec-level
predicates — the price-below-style combinations (buy limit, sell
stop-loss, buy take-profit) match iff `current_price ≤ trigger_value`,
the price-above-style combinations (sell limit, buy stop-loss, sell
take-profit) match iff `current_price ≥ trigger_value`; in particular a
current price exactly equal to the trigger value is a match for every
combination of both styles. -/
theorem c8_boundary_inclusive (p t : ℚ) :
    (shouldTrigger .limit .buy p t = decide (p ≤ t)) ∧
    (shouldTrigger .stopLoss .sell p t = decide (p ≤ t)) ∧
    (shouldTrigger .takeProfit .buy p t = decide (p ≤ t)) ∧
    (shouldTrigger .limit .sell p t = decide (t ≤ p)) ∧
    (shouldTrigger .stopLoss .buy p t = decide (t ≤ p)) ∧
    (shouldTrigger .takeProfit .sell p t = decide (t ≤ p)) ∧
    (∀ kind side, shouldTrigger kind side t t = true) := by
  refine ⟨rfl, rfl, rfl, rfl, rfl, rfl, ?_⟩
  intro kind side
  cases kind <;> cases side <;> simp [shouldTrigger]

end LimitOrders

namespace Seal

/-!
Embedding of the mock Seal encryption pipeline of `src/lib/seal.ts`:
`xorCipher`, `createMockEncryptedObject` (envelope = 4-byte little-endian
metadata length, JSON metadata, XOR ciphertext), `encryptIntentMock` and
`decryptMockIntent`.  Bytes are `List Nat`; the JavaScript `^` operator
on byte values is `Nat.xor`.

The payload serialization in the source is `TextEncoder().encode(
JSON.stringify(intentObject))` and the decoder is `JSON.parse` — an
external JS library pair.  They are modelled concretely:
`serializeIntent` produces the exact JSON text (UTF-8 byte codes, keys
in the declaration order of the `IntentData` interface, which is the
insertion order `JSON.stringify` preserves), and `parseIntent` models
`JSON.parse` restricted to that shape.  String payload fields are
modelled as byte lists and numeric fields as naturals (JavaScript
numbers; `JSON.parse ∘ JSON.stringify` is the identity on them by the
ECMA-404/ES shortest-round-trip guarantee, so integers lose no
generality for the round-trip structure). -/

/-- `triggerType` field: "price_below" | "price_above". -/
inductive TriggerType where
  | price_below
  | price_above
deriving DecidableEq, Repr

/-- `orderType` field: "market" | "limit". -/
inductive OrderType where
  | market
  | limit
deriving DecidableEq, Repr

/-- `side` field: "buy" | "sell". -/
inductive Side where
  | buy
  | sell
deriving DecidableEq, Repr

/-- The `IntentData` interface of `seal.ts`.  String fields are byte
lists, numeric fields naturals, `leverage` is the optional field. -/
structure IntentData where
  intentId : List Nat
  pair : List Nat
  triggerType : TriggerType
  triggerValue : Nat
  orderType : OrderType
  side : Side
  quantity : Nat
  leverage : Option Nat
  slippageBps : Nat
  expiresAt : Nat
deriving DecidableEq, Repr

/-- The fields of `SealConfig` that flow into the mock envelope. -/
structure SealConfigM where
  policyPackageId : List Nat
  threshold : Nat
  keyServers : Nat
deriving DecidableEq, Repr

/-! ### XOR cipher -/

/-- Loop body of `xorCipher`: `result[i] = data[i] ^ key[i % key.length]`
(an empty key indexes as `undefined`, which `^` coerces to 0 — modelled
by `getD _ 0`). -/
def xorCipherAux (key : List Nat) : Nat → List Nat → List Nat
  | _, [] => []
  | i, d :: rest =>
      (d ^^^ key.getD (i % key.length) 0) :: xorCipherAux key (i + 1) rest

/-- `xorCipher` from `seal.ts`. -/
def xorCipher (data key : List Nat) : List Nat :=
  xorCipherAux key 0 data

/-! ### Envelope framing -/

/-- `DataView.setUint32(0, n, true)` — the 4 little-endian bytes of
`n mod 2^32`. -/
def u32le (n : Nat) : List Nat :=
  [n % 256, n / 256 % 256, n / 65536 % 256, n / 16777216 % 256]

/-- `DataView.getUint32(0, true)` — read the first 4 bytes
little-endian. -/
def getU32le (b : List Nat) : Nat :=
  b.getD 0 0 + 256 * b.getD 1 0 + 65536 * b.getD 2 0 +
    16777216 * b.getD 3 0

/-! ### Decimal digits (for the JSON rendering of numbers) -/

/-- Fuel-driven decimal rendering (most significant digit first);
`fuel > n` suffices. -/
def natDigitsAux : Nat → Nat → List Nat
  | 0, _ => []
  | fuel + 1, n =>
      if n < 10 then [48 + n]
      else natDigitsAux fuel (n / 10) ++ [48 + n % 10]

/-- ASCII decimal digits of `n`, as `JSON.stringify` renders a
nonnegative integer. -/
def natDigits (n : Nat) : List Nat :=
  natDigitsAux (n + 1) n

/-! ### JSON text segments

The constant pieces of `JSON.stringify({...intent, version: 1,
createdAt})` and of the envelope metadata JSON, as ASCII codes.  Each
doc comment shows the text. -/

/-- The text: LBRACE `"intentId":"` -/
def segIid : List Nat :=
  [123, 34, 105, 110, 116, 101, 110, 116, 73, 100, 34, 58, 34]

/-- The text: `,"pair":"` -/
def segPair : List Nat := [44, 34, 112, 97, 105, 114, 34, 58, 34]

/-- The text: `,"triggerType":"` -/
def segTT : List Nat :=
  [44, 34, 116, 114, 105, 103, 103, 101, 114, 84, 121, 112, 101, 34, 58,
    34]

/-- The text: `,"triggerValue":` -/
def segTV : List Nat :=
  [44, 34, 116, 114, 105, 103, 103, 101, 114, 86, 97, 108, 117, 101, 34,
    58]

/-- The text: `,"orderType":"` -/
def segOT : List Nat :=
  [44, 34, 111, 114, 100, 101, 114, 84, 121, 112, 101, 34, 58, 34]

/-- The text: `,"side":"` -/
def segSide : List Nat := [44, 34, 115, 105, 100, 101, 34, 58, 34]

/-- The text: `,"quantity":` -/
def segQty : List Nat :=
  [44, 34, 113, 117, 97, 110, 116, 105, 116, 121, 34, 58]

/-- The text: `,"leverage":` -/
def segLev : List Nat :=
  [44, 34, 108, 101, 118, 101, 114, 97, 103, 101, 34, 58]

/-- The text: `,"slippageBps":` -/
def segSlip : List Nat :=
  [44, 34, 115, 108, 105, 112, 112, 97, 103, 101, 66, 112, 115, 34, 58]

/-- The text: `,"expiresAt":` -/
def segExp : List Nat :=
  [44, 34, 101, 120, 112, 105, 114, 101, 115, 65, 116, 34, 58]

/-- The text: `,"version":1,"createdAt":` -/
def segVerCreated : List Nat :=
  [44, 34, 118, 101, 114, 115, 105, 111, 110, 34, 58, 49, 44, 34, 99,
    114, 101, 97, 116, 101, 100, 65, 116, 34, 58]

/-- The text: RBRACE -/
def segClose : List Nat := [125]

/-- The text: LBRACE `"version":1,"intentId":"` -/
def metaSeg1 : List Nat :=
  [123, 34, 118, 101, 114, 115, 105, 111, 110, 34, 58, 49, 44, 34, 105,
    110, 116, 101, 110, 116, 73, 100, 34, 58, 34]

/-- The text: `,"packageId":"` -/
def metaSeg2 : List Nat :=
  [44, 34, 112, 97, 99, 107, 97, 103, 101, 73, 100, 34, 58, 34]

/-- The text: `,"threshold":` -/
def metaSeg3 : List Nat :=
  [44, 34, 116, 104, 114, 101, 115, 104, 111, 108, 100, 34, 58]

/-- The text: `,"keyServers":` -/
def metaSeg4 : List Nat :=
  [44, 34, 107, 101, 121, 83, 101, 114, 118, 101, 114, 115, 34, 58]

/-- The text: `,"timestamp":` -/
def metaSeg5 : List Nat :=
  [44, 34, 116, 105, 109, 101, 115, 116, 97, 109, 112, 34, 58]

/-- The text: `,"mock":true` RBRACE -/
def metaSeg6 : List Nat :=
  [44, 34, 109, 111, 99, 107, 34, 58, 116, 114, 117, 101, 125]

/-- The text: `price_below` -/
def ttBelow : List Nat :=
  [112, 114, 105, 99, 101, 95, 98, 101, 108, 111, 119]

/-- The text: `price_above` -/
def ttAbove : List Nat :=
  [112, 114, 105, 99, 101, 95, 97, 98, 111, 118, 101]

/-- The text: `market` -/
def otMarket : List Nat := [109, 97, 114, 107, 101, 116]

/-- The text: `limit` -/
def otLimit : List Nat := [108, 105, 109, 105, 116]

/-- The text: `buy` -/
def sideBuy : List Nat := [98, 117, 121]

/-- The text: `sell` -/
def sideSell : List Nat := [115, 101, 108, 108]

def ttStr : TriggerType → List Nat
  | .price_below => ttBelow
  | .price_above => ttAbove

def otStr : OrderType → List Nat
  | .market => otMarket
  | .limit => otLimit

def sideStr : Side → List Nat
  | .buy => sideBuy
  | .sell => sideSell

/-- A JSON string body followed by its closing quote. -/
def strQ (s : List Nat) : List Nat := s ++ [34]

/-- The leverage part: absent fields are omitted by `JSON.stringify`. -/
def levStr : Option Nat → List Nat
  | none => []
  | some l => segLev ++ natDigits l

/-- The exact bytes of
`TextEncoder().encode(JSON.stringify({...intent, version: 1, createdAt}))`
(see the module comment for the modelling of the JSON library). -/
def serializeIntent (x : IntentData) (createdAt : Nat) : List Nat :=
  segIid ++ strQ x.intentId ++ segPair ++ strQ x.pair ++ segTT ++
  strQ (ttStr x.triggerType) ++ segTV ++ natDigits x.triggerValue ++
  segOT ++ strQ (otStr x.orderType) ++ segSide ++
  strQ (sideStr x.side) ++ segQty ++ natDigits x.quantity ++
  levStr x.leverage ++ segSlip ++ natDigits x.slippageBps ++ segExp ++
  natDigits x.expiresAt ++ segVerCreated ++ natDigits createdAt ++
  segClose

/-- The envelope metadata
`JSON.stringify({version: 1, intentId, packageId, threshold, keyServers,
timestamp, mock: true})` of `createMockEncryptedObject`. -/
def mockMetadata (intentId packageId : List Nat)
    (threshold keyServers timestamp : Nat) : List Nat :=
  metaSeg1 ++ strQ intentId ++ metaSeg2 ++ strQ packageId ++ metaSeg3 ++
  natDigits threshold ++ metaSeg4 ++ natDigits keyServers ++ metaSeg5 ++
  natDigits timestamp ++ metaSeg6

/-- `createMockEncryptedObject`: envelope = [4-byte LE metadata length]
[metadata][xor ciphertext]; also returns the key.  The random key and
the `Date.now()` timestamp are the two environment inputs, passed as
parameters. -/
def createMockEncryptedObject (plaintext intentId : List Nat)
    (cfg : SealConfigM) (key : List Nat) (timestamp : Nat) :
    List Nat × List Nat :=
  let ciphertext := xorCipher plaintext key
  let metadata := mockMetadata intentId cfg.policyPackageId
    cfg.threshold cfg.keyServers timestamp
  (u32le metadata.length ++ metadata ++ ciphertext, key)

/-- `encryptIntentMock`: serialize the intent (with `version` and
`createdAt` added), then build the mock envelope.  Returns
(encryptedBytes, backupKey). -/
def encryptIntentMock (intent : IntentData) (cfg : SealConfigM)
    (key : List Nat) (nowMs : Nat) : List Nat × List Nat :=
  let plaintext := serializeIntent intent nowMs
  createMockEncryptedObject plaintext intent.intentId cfg key nowMs

/-! ### Parser (model of `JSON.parse` on the serialized shape) -/

/-- Require and consume an exact byte sequence. -/
def dropSeg : List Nat → List Nat → Option (List Nat)
  | [], b => some b
  | _ :: _, [] => none
  | p :: ps, c :: cs => if p = c then dropSeg ps cs else none

/-- Read a JSON string body up to (and consuming) the closing quote. -/
def readStr : List Nat → Option (List Nat × List Nat)
  | [] => none
  | c :: cs =>
      if c = 34 then some ([], cs)
      else
        match readStr cs with
        | none => none
        | some (s, r) => some (c :: s, r)

/-- Read a decimal number (accumulator form). -/
def readNatAux : Nat → List Nat → Nat × List Nat
  | acc, [] => (acc, [])
  | acc, c :: cs =>
      if 48 ≤ c ∧ c ≤ 57 then readNatAux (acc * 10 + (c - 48)) cs
      else (acc, c :: cs)

def parseTT (s : List Nat) : Option TriggerType :=
  if s = ttBelow then some .price_below
  else if s = ttAbove then some .price_above
  else none

def parseOT (s : List Nat) : Option OrderType :=
  if s = otMarket then some .market
  else if s = otLimit then some .limit
  else none

def parseSide (s : List Nat) : Option Side :=
  if s = sideBuy then some .buy
  else if s = sideSell then some .sell
  else none

/-- Consume a constant segment, then a quoted string. -/
def parseStrField (seg b : List Nat) : Option (List Nat × List Nat) :=
  match dropSeg seg b with
  | none => none
  | some b2 => readStr b2

/-- Consume a constant segment, then a decimal number. -/
def parseNatField (seg b : List Nat) : Option (Nat × List Nat) :=
  match dropSeg seg b with
  | none => none
  | some b2 => some (readNatAux 0 b2)

/-- Consume the optional `leverage` field. -/
def parseLevField (b : List Nat) : Option Nat × List Nat :=
  match dropSeg segLev b with
  | some b2 =>
      match readNatAux 0 b2 with
      | (l, b3) => (some l, b3)
  | none => (none, b)

/-- The three string-enum fields and the leading `intentId`/`pair`
strings: everything up to and including `side`. -/
def parseHead (b : List Nat) :
    Option (List Nat × List Nat × TriggerType × Nat × OrderType × Side ×
      List Nat) :=
  match parseStrField segIid b with
  | none => none
  | some (iid, b1) =>
  match parseStrField segPair b1 with
  | none => none
  | some (pr, b2) =>
  match parseStrField segTT b2 with
  | none => none
  | some (tts, b3) =>
  match parseTT tts with
  | none => none
  | some tt =>
  match parseNatField segTV b3 with
  | none => none
  | some (tv, b4) =>
  match parseStrField segOT b4 with
  | none => none
  | some (ots, b5) =>
  match parseOT ots with
  | none => none
  | some ot =>
  match parseStrField segSide b5 with
  | none => none
  | some (sds, b6) =>
  match parseSide sds with
  | none => none
  | some sd => some (iid, pr, tt, tv, ot, sd, b6)

/-- The numeric tail: `quantity`, optional `leverage`, `slippageBps`,
`expiresAt`, the constant `version`, `createdAt`, and the closing
brace; the whole input must be consumed. -/
def parseTail (b : List Nat) : Option (Nat × Option Nat × Nat × Nat) :=
  match parseNatField segQty b with
  | none => none
  | some (qty, b1) =>
  match parseLevField b1 with
  | (lev, b2) =>
  match parseNatField segSlip b2 with
  | none => none
  | some (slip, b3) =>
  match parseNatField segExp b3 with
  | none => none
  | some (exp, b4) =>
  match parseNatField segVerCreated b4 with
  | none => none
  | some (_, b5) =>
  match dropSeg segClose b5 with
  | none => none
  | some b6 => if b6.isEmpty then some (qty, lev, slip, exp) else none

/-- `JSON.parse` of the intent payload, restricted to the serialized
shape (returns `none` — the source's `null` via catch — on anything
else). -/
def parseIntent (b : List Nat) : Option IntentData :=
  match parseHead b with
  | none => none
  | some (iid, pr, tt, tv, ot, sd, b1) =>
  match parseTail b1 with
  | none => none
  | some (qty, lev, slip, exp) =>
      some ⟨iid, pr, tt, tv, ot, sd, qty, lev, slip, exp⟩

/-- `decryptMockIntent`: read the metadata length (little-endian u32 at
offset 0), slice off `4 + metadataLength`, xor with the key, parse. -/
def decryptMockIntent (encrypted key : List Nat) : Option IntentData :=
  let metadataLength := getU32le encrypted
  let ciphertext := encrypted.drop (4 + metadataLength)
  let plaintext := xorCipher ciphertext key
  parseIntent plaintext

/-! ### Round-trip lemmas -/

theorem xorCipherAux_invol (key : List Nat) :
    ∀ (data : List Nat) (i : Nat),
      xorCipherAux key i (xorCipherAux key i data) = data := by
  intro data
  induction data with
  | nil => intro i; rfl
  | cons d rest ih =>
      intro i
      simp only [xorCipherAux, List.cons.injEq]
      refine ⟨?_, ih (i + 1)⟩
      rw [Nat.xor_assoc, Nat.xor_self, Nat.xor_zero]

/-- `xorCipher` with any key is an involution. -/
theorem xorCipher_invol (data key : List Nat) :
    xorCipher (xorCipher data key) key = data :=
  xorCipherAux_invol key data 0

theorem xorCipherAux_length (key : List Nat) :
    ∀ (data : List Nat) (i : Nat),
      (xorCipherAux key i data).length = data.length := by
  intro data
  induction data with
  | nil => intro i; rfl
  | cons d rest ih =>
      intro i
      simp only [xorCipherAux, List.length_cons, ih (i + 1)]

theorem getU32le_u32le (n : Nat) (rest : List Nat)
    (h : n < 4294967296) : getU32le (u32le n ++ rest) = n := by
  simp only [u32le, getU32le, List.cons_append, List.nil_append,
    List.getD_cons_zero, List.getD_cons_succ]
  omega

theorem drop_envelope (meta ct : List Nat) :
    (u32le meta.length ++ meta ++ ct).drop (4 + meta.length) = ct := by
  have h4 : (u32le meta.length).length = 4 := by simp [u32le]
  have hlen : (u32le meta.length ++ meta).length = 4 + meta.length := by
    simp [h4]
  calc (u32le meta.length ++ meta ++ ct).drop (4 + meta.length)
      = ((u32le meta.length ++ meta) ++ ct).drop
          ((u32le meta.length ++ meta).length) := by rw [hlen]
    _ = ct := List.drop_left _ _

theorem dropSeg_pre : ∀ (p r : List Nat), dropSeg p (p ++ r) = some r := by
  intro p
  induction p with
  | nil => intro r; rfl
  | cons c cs ih =>
      intro r
      simp only [List.cons_append, dropSeg, if_pos rfl]
      exact ih r

theorem readStr_raw :
    ∀ (s r : List Nat), 34 ∉ s → readStr (s ++ 34 :: r) = some (s, r) := by
  intro s
  induction s with
  | nil =>
      intro r _
      simp [readStr]
  | cons c cs ih =>
      intro r h
      have hc : c ≠ 34 := fun hc => h (by simp [hc])
      have hcs : 34 ∉ cs := fun hm => h (List.mem_cons_of_mem _ hm)
      simp only [List.cons_append, readStr, if_neg (by omega : ¬ c = 34),
        List.append_eq, ih r hcs]

theorem readStr_strQ (s r : List Nat) (h : 34 ∉ s) :
    readStr (strQ s ++ r) = some (s, r) := by
  have he : strQ s ++ r = s ++ 34 :: r := by
    simp [strQ, List.append_assoc]
  rw [he, readStr_raw s r h]

theorem natDigitsAux_irrel :
    ∀ (n f1 f2 : Nat), n < f1 → n < f2 →
      natDigitsAux f1 n = natDigitsAux f2 n := by
  intro n
  induction n using Nat.strong_induction_on with
  | _ n ih =>
      intro f1 f2 h1 h2
      match f1, f2 with
      | f1 + 1, f2 + 1 =>
          simp only [natDigitsAux]
          split_ifs with h10
          · rfl
          · have hlt : n / 10 < n := Nat.div_lt_self (by omega) (by omega)
            rw [ih (n / 10) hlt f1 f2 (by omega) (by omega)]

theorem natDigits_eq (n : Nat) :
    natDigits n =
      if n < 10 then [48 + n]
      else natDigits (n / 10) ++ [48 + n % 10] := by
  show natDigitsAux (n + 1) n = _
  simp only [natDigitsAux]
  split_ifs with h10
  · rfl
  · have hlt : n / 10 < n := Nat.div_lt_self (by omega) (by omega)
    rw [natDigitsAux_irrel (n / 10) n (n / 10 + 1) (by omega) (by omega)]
    rfl

theorem readNat0 :
    ∀ (n : Nat) (rest : List Nat),
      readNatAux 0 (natDigits n ++ rest) = readNatAux n rest := by
  intro n
  induction n using Nat.strong_induction_on with
  | _ n ih =>
      intro rest
      rw [natDigits_eq]
      split_ifs with h10
      · simp only [List.cons_append, List.nil_append, readNatAux]
        rw [if_pos (by omega)]
        congr 1
        omega
      · have hlt : n / 10 < n := Nat.div_lt_self (by omega) (by omega)
        rw [List.append_assoc, ih (n / 10) hlt]
        simp only [List.cons_append, List.nil_append, readNatAux]
        rw [if_pos (by omega)]
        congr 1
        have := Nat.div_add_mod n 10
        omega

/-- The next byte (if any) is not an ASCII digit. -/
def nondigit : List Nat → Prop
  | [] => True
  | c :: _ => ¬ (48 ≤ c ∧ c ≤ 57)

theorem readNatAux_stop (acc : Nat) (r : List Nat) (h : nondigit r) :
    readNatAux acc r = (acc, r) := by
  cases r with
  | nil => rfl
  | cons c cs => simp only [readNatAux, if_neg h]

theorem readNat_digits (n : Nat) (rest : List Nat) (h : nondigit rest) :
    readNatAux 0 (natDigits n ++ rest) = (n, rest) := by
  rw [readNat0, readNatAux_stop n rest h]

theorem nondigit_segOT (r : List Nat) : nondigit (segOT ++ r) := by
  simp [segOT, nondigit]

theorem nondigit_segLev (r : List Nat) : nondigit (segLev ++ r) := by
  simp [segLev, nondigit]

theorem nondigit_segSlip (r : List Nat) : nondigit (segSlip ++ r) := by
  simp [segSlip, nondigit]

theorem nondigit_segExp (r : List Nat) : nondigit (segExp ++ r) := by
  simp [segExp, nondigit]

theorem nondigit_segVerCreated (r : List Nat) :
    nondigit (segVerCreated ++ r) := by
  simp [segVerCreated, nondigit]

theorem nondigit_segClose : nondigit segClose := by
  simp [segClose, nondigit]

theorem parseStrField_pre (seg s r : List Nat) (h : 34 ∉ s) :
    parseStrField seg (seg ++ (strQ s ++ r)) = some (s, r) := by
  simp only [parseStrField, dropSeg_pre, readStr_strQ s r h]

theorem parseNatField_pre (seg : List Nat) (n : Nat) (rest : List Nat)
    (h : nondigit rest) :
    parseNatField seg (seg ++ (natDigits n ++ rest)) = some (n, rest) := by
  simp only [parseNatField, dropSeg_pre, readNat_digits n rest h]

theorem dropSeg_self (p : List Nat) : dropSeg p p = some [] := by
  have h := dropSeg_pre p []
  simpa using h

theorem dropSeg_segLev_segSlip (r : List Nat) :
    dropSeg segLev (segSlip ++ r) = none := by
  simp [segLev, segSlip, dropSeg]

theorem parseLevField_none (r : List Nat) :
    parseLevField (segSlip ++ r) = (none, segSlip ++ r) := by
  simp only [parseLevField, dropSeg_segLev_segSlip]

theorem parseLevField_some (l : Nat) (r : List Nat) :
    parseLevField (segLev ++ (natDigits l ++ (segSlip ++ r))) =
      (some l, segSlip ++ r) := by
  simp only [parseLevField, dropSeg_pre,
    readNat_digits l _ (nondigit_segSlip r)]

theorem ttStr_no_quote (tt : TriggerType) : 34 ∉ ttStr tt := by
  cases tt <;> decide

theorem otStr_no_quote (ot : OrderType) : 34 ∉ otStr ot := by
  cases ot <;> decide

theorem sideStr_no_quote (sd : Side) : 34 ∉ sideStr sd := by
  cases sd <;> decide

theorem parseTT_ttStr (tt : TriggerType) : parseTT (ttStr tt) = some tt := by
  cases tt <;> rfl

theorem parseOT_otStr (ot : OrderType) : parseOT (otStr ot) = some ot := by
  cases ot <;> rfl

theorem parseSide_sideStr (sd : Side) :
    parseSide (sideStr sd) = some sd := by
  cases sd <;> rfl

theorem parseHead_pre (iid pr : List Nat) (tt : TriggerType) (tv : Nat)
    (ot : OrderType) (sd : Side) (rest : List Nat) (h1 : 34 ∉ iid)
    (h2 : 34 ∉ pr) :
    parseHead (segIid ++ (strQ iid ++ (segPair ++ (strQ pr ++ (segTT ++
      (strQ (ttStr tt) ++ (segTV ++ (natDigits tv ++ (segOT ++
      (strQ (otStr ot) ++ (segSide ++ (strQ (sideStr sd) ++
      rest)))))))))))) = some (iid, pr, tt, tv, ot, sd, rest) := by
  simp only [parseHead, parseStrField_pre _ _ _ h1,
    parseStrField_pre _ _ _ h2,
    parseStrField_pre _ _ _ (ttStr_no_quote tt), parseTT_ttStr,
    parseNatField_pre _ _ _ (nondigit_segOT _),
    parseStrField_pre _ _ _ (otStr_no_quote ot), parseOT_otStr,
    parseStrField_pre _ _ _ (sideStr_no_quote sd), parseSide_sideStr]

theorem parseTail_pre (qty : Nat) (lev : Option Nat) (slip exp now2 : Nat) :
    parseTail (segQty ++ (natDigits qty ++ (levStr lev ++ (segSlip ++
      (natDigits slip ++ (segExp ++ (natDigits exp ++ (segVerCreated ++
      (natDigits now2 ++ segClose))))))))) = some (qty, lev, slip, exp) := by
  cases lev with
  | none =>
      simp only [levStr, List.nil_append]
      simp only [parseTail,
        parseNatField_pre _ _ _ (nondigit_segSlip _),
        parseLevField_none,
        parseNatField_pre _ _ _ (nondigit_segExp _),
        parseNatField_pre _ _ _ (nondigit_segVerCreated _),
        parseNatField_pre _ _ _ nondigit_segClose,
        dropSeg_self, List.isEmpty_nil, if_pos]
  | some l =>
      simp only [levStr, List.append_assoc]
      simp only [parseTail,
        parseNatField_pre _ _ _ (nondigit_segLev _),
        parseLevField_some,
        parseNatField_pre _ _ _ (nondigit_segExp _),
        parseNatField_pre _ _ _ (nondigit_segVerCreated _),
        parseNatField_pre _ _ _ nondigit_segClose,
        dropSeg_self, List.isEmpty_nil, if_pos]

/-- `decode (encode x) = x`: parsing the serialized intent payload
recovers every field, for any payload whose string fields contain no
quote byte (JSON escaping is out of the modelled fragment). -/
theorem parse_serialize (x : IntentData) (now2 : Nat)
    (h1 : 34 ∉ x.intentId) (h2 : 34 ∉ x.pair) :
    parseIntent (serializeIntent x now2) = some x := by
  unfold serializeIntent
  simp only [List.append_assoc]
  simp only [parseIntent, parseHead_pre _ _ _ _ _ _ _ h1 h2,
    parseTail_pre]

/-- A concrete intent payload (intentId "i1", pair "SUI"). -/
def sampleIntentData : IntentData :=
  { intentId := [105, 49], pair := [83, 85, 73],
    triggerType := .price_below, triggerValue := 50,
    orderType := .market, side := .buy, quantity := 1,
    leverage := none, slippageBps := 30, expiresAt := 999 }

/-- A concrete Seal configuration (packageId "0x0", 2-of-3). -/
def sampleSealConfig : SealConfigM :=
  { policyPackageId := [48, 120, 48], threshold := 2, keyServers := 3 }

/-- Claim C9: the mock encryption round-trips — `decryptMockIntent`
applied to the envelope produced by `encryptIntentMock x` together with
the returned backup key yields exactly the intent fields of `x`
(for any key, any creation time, and any payload whose string fields
contain no quote byte, with the envelope metadata shorter than the
`setUint32` range) — and, equivalently for the cipher layer, `xorCipher`
with one and the same key is an involution on arbitrary data. -/
theorem c9_roundtrip (x : IntentData) (cfg : SealConfigM)
    (key : List Nat) (nowMs : Nat) (h1 : 34 ∉ x.intentId)
    (h2 : 34 ∉ x.pair)
    (hm : (mockMetadata x.intentId cfg.policyPackageId cfg.threshold
      cfg.keyServers nowMs).length < 4294967296) :
    decryptMockIntent (encryptIntentMock x cfg key nowMs).1
      (encryptIntentMock x cfg key nowMs).2 = some x ∧
    (∀ data k : List Nat, xorCipher (xorCipher data k) k = data) := by
  constructor
  · show decryptMockIntent
      (u32le (mockMetadata x.intentId cfg.policyPackageId cfg.threshold
          cfg.keyServers nowMs).length ++
        mockMetadata x.intentId cfg.policyPackageId cfg.threshold
          cfg.keyServers nowMs ++
        xorCipher (serializeIntent x nowMs) key) key = some x
    show parseIntent (xorCipher
      (List.drop (4 + getU32le
        (u32le (mockMetadata x.intentId cfg.policyPackageId cfg.threshold
            cfg.keyServers nowMs).length ++
          mockMetadata x.intentId cfg.policyPackageId cfg.threshold
            cfg.keyServers nowMs ++
          xorCipher (serializeIntent x nowMs) key))
        (u32le (mockMetadata x.intentId cfg.policyPackageId cfg.threshold
            cfg.keyServers nowMs).length ++
          mockMetadata x.intentId cfg.policyPackageId cfg.threshold
            cfg.keyServers nowMs ++
          xorCipher (serializeIntent x nowMs) key)) key) = some x
    rw [List.append_assoc, getU32le_u32le _ _ hm, ← List.append_assoc,
      drop_envelope, xorCipher_invol, parse_serialize x nowMs h1 h2]
  · intro data k
    exact xorCipher_invol data k

/-- Witness for `c9_roundtrip` at a fully concrete intent, key and
clock. -/
theorem c9_roundtrip_witness :
    decryptMockIntent
      (encryptIntentMock sampleIntentData sampleSealConfig [5, 6, 7]
        1000).1
      (encryptIntentMock sampleIntentData sampleSealConfig [5, 6, 7]
        1000).2 = some sampleIntentData :=
  (c9_roundtrip sampleIntentData sampleSealConfig [5, 6, 7] 1000
    (by decide) (by decide) (by decide)).1

end Seal
